import Mathlib

/-!
Verification of the nginx_totp_auth authentication server (src/server.cc).

C++ `std::string` values are modelled as lists of byte values (`Str`).
HMAC implementations (util.h) are abstract function parameters; hex
encoding/decoding, newline stripping, the rate limiter and the template
registry live in headers outside src/ and are modelled from the spec.
-/

/-- A C++ `std::string`: a sequence of byte values. -/
abbrev Str := List Nat

/-- Bytes of an ASCII string literal. -/
def strB (s : String) : Str := s.data.map Char.toNat

/-- Lookup in a `StrMap` (`std::unordered_map<std::string,std::string>`);
`operator[]` yields the empty string for an absent key. -/
def mapGet (m : List (Str × Str)) (k : Str) : Str :=
  match m.find? (fun p => p.1 == k) with
  | some p => p.2
  | none => []

def auth_uri_s : String := "/auth"
def login_uri_s : String := "/login"
def logout_uri_s : String := "/logout"
def root_s : String := "/"
def post_s : String := "POST"
def follow_page_s : String := "follow_page"
def username_s : String := "username"
def password_s : String := "password"
def totp_key_s : String := "totp"
def auth_token_s : String := "authentication-token"
def resp_auth_ok_s : String := "Status: 200\r\nContent-Type: text/plain\r\nContent-Length: 24\r\n\r\nAuthentication Succeeded"
def resp_auth_denied_s : String := "Status: 401\r\nContent-Type: text/plain\r\nContent-Length: 21\r\n\r\nAuthentication Denied"
def resp_ratelimited_s : String := "Status: 429\r\nContent-Type: text/plain\r\nContent-Length: 34\r\n\r\nToo many requests, request blocked"
def resp_302_pre_s : String := "Status: 302\r\nSet-Cookie: authentication-token="
def resp_302_mid_s : String := "\r\nLocation: "
def crlf2_s : String := "\r\n\r\n"
def resp_no_template_s : String := "Status: 500\r\nContent-Type: text/plain\r\nContent-Length: 23\r\n\r\nCould not find template"
def resp_render_pre_s : String := "Status: 200\r\nContent-Type: text/html\r\nContent-Length: "
def resp_logout_s : String := "Status: 302\r\nSet-Cookie: authentication-token=null\r\nCache-Control: no-cache, no-store, max-age=0\r\nLocation: /login\r\n\r\n"
def resp_notfound_s : String := "Status: 404\r\nContent-Type: text/plain\r\nContent-Length: 48\r\nNot found, valid endpoints: /auth /login /logout\r\n\r\n"
def resp_notfound_head_s : String := "Status: 404\r\nContent-Type: text/plain\r\nContent-Length: 48\r\n"
def resp_notfound_tail_s : String := "Not found, valid endpoints: /auth /login /logout\r\n\r\n"

/-- Modelled from the spec: the hex digit for a nibble, lowercase
(`hex_encode` of util.h, "Hex uses lowercase, two nibbles per byte"). -/
def hexDigit (n : Nat) : Nat :=
  if n < 10 then 48 + n else 87 + n

/-- Modelled from the spec: `hex_encode(bytes) → string` of util.h,
two lowercase nibbles per byte. -/
def hexencode : Str → Str
  | [] => []
  | b :: rest => hexDigit (b / 16) :: hexDigit (b % 16) :: hexencode rest

/-- Modelled from the spec: value of one hex digit; `none` on a non-hex
character (util.h `hex_decode` "fails on odd length or non-hex digit"). -/
def unhex (c : Nat) : Option Nat :=
  if 48 ≤ c ∧ c ≤ 57 then some (c - 48)
  else if 97 ≤ c ∧ c ≤ 102 then some (c - 87)
  else if 65 ≤ c ∧ c ≤ 70 then some (c - 55)
  else none

/-- Modelled from the spec: `hex_decode(string) → bytes` of util.h,
failing on odd length or a non-hex digit. -/
def hexdecode : Str → Option Str
  | [] => some []
  | [_] => none
  | a :: b :: rest =>
    match unhex a, unhex b, hexdecode rest with
    | some hi, some lo, some r => some ((hi * 16 + lo) :: r)
    | _, _, _ => none

/-- Decimal digits of `n`, most significant first, as ASCII bytes
(helper for `std::to_string`); `fuel` bounds the recursion. -/
def decAux (fuel n : Nat) : Str :=
  match fuel with
  | 0 => []
  | fuel' + 1 => if n = 0 then [] else decAux fuel' (n / 10) ++ [n % 10 + 48]

/-- `std::to_string` on an unsigned value: decimal ASCII bytes. -/
def decBytes (n : Nat) : Str :=
  if n = 0 then [48] else decAux n n

/-- Maximal run of leading decimal digits, accumulating their value
(the digit loop of C `atol`/`atoi`). -/
def parseDigits : Str → Nat → Nat
  | c :: rest, acc => if 48 ≤ c ∧ c ≤ 57 then parseDigits rest (acc * 10 + (c - 48)) else acc
  | [], acc => acc

/-- Leading-whitespace skipping of C `atol`/`atoi`. -/
def skipWS : Str → Str
  | c :: rest => if c = 32 ∨ (9 ≤ c ∧ c ≤ 13) then skipWS rest else c :: rest
  | [] => []

/-- C `atol`: skip whitespace, optional sign, leading decimal digits;
0 when no digits are found. -/
def atolB (s : Str) : Int :=
  match skipWS s with
  | [] => 0
  | c :: rest =>
    if c = 45 then -(parseDigits rest 0 : Int)
    else if c = 43 then (parseDigits rest 0 : Int)
    else (parseDigits (c :: rest) 0 : Int)

/-- `uint64_t ets = atol(c1.c_str())` of check_cookie: the parsed value
converted to an unsigned 64-bit integer. -/
def etsOf (s : Str) : Nat := ((atolB s) % (2 ^ 64 : Int)).toNat

/-- `unsigned totp = atoi(...)` of process_req: the parsed value
converted to an unsigned 32-bit integer. -/
def atoiU (s : Str) : Nat := ((atolB s) % (2 ^ 32 : Int)).toNat

/-- `enum htAlgo` of server.cc. -/
inductive htAlgo where
  | hAlgoSha1
  | hAlgoSha256
  | hAlgoSha512
deriving DecidableEq

export htAlgo (hAlgoSha1 hAlgoSha256 hAlgoSha512)

/-- `struct cred_t` of server.cc. -/
structure cred_t where
  password : Str
  totp : Str
  sduration : Nat
  digits : Nat
  period : Nat
  algorithm : htAlgo
deriving DecidableEq

/-- `struct web_t` of server.cc; the user map is an association list. -/
structure web_t where
  webtemplate : Str
  totp_generations : Nat
  users : List (Str × cred_t)
deriving DecidableEq

/-- Lookup of `wcfg->users.count(u)` / `wcfg->users.at(u)`. -/
def usersFind (users : List (Str × cred_t)) (u : Str) : Option cred_t :=
  (users.find? (fun p => p.1 == u)).map (fun p => p.2)

/-- `struct web_req` of server.cc. -/
structure web_req where
  method : Str
  host : Str
  uri : Str
  getvars : List (Str × Str)
  postvars : List (Str × Str)
  cookies : List (Str × Str)
  ip64 : Nat

/-- `std::string::find(c, start)` restricted to searching from the head:
index of the first occurrence of byte `c`, `none` for `npos`. -/
def strFind : Str → Nat → Option Nat
  | [], _ => none
  | a :: rest, c => if a = c then some 0 else (strFind rest c).map (· + 1)

/-- `AuthenticationServer::create_cookie` (server.cc lines 104-107);
`hm1` is `hmac_sha1`, `now` is `time(0)`. -/
def create_cookie (hm1 : Str → Str → Str) (secret : Str) (now : Nat) (user : Str) : Str :=
  let payload := (decBytes now ++ [58]) ++ hexencode user
  (payload ++ [58]) ++ hexencode (hm1 secret payload)

/-- `AuthenticationServer::check_cookie` (server.cc lines 110-133);
`now % 2 ^ 32` models the `(unsigned)time(0)` cast on line 128; failed
hex decoding of a field denies, per the spec's cookie `verify`. -/
def check_cookie (hm1 : Str → Str → Str) (secret : Str) (now : Nat)
    (wcfg : web_t) (cookie : Str) : Bool :=
  match strFind cookie 58 with
  | none => false
  | some p1 =>
    match strFind (cookie.drop (p1 + 1)) 58 with
    | none => false
    | some q =>
      let p2 := p1 + 1 + q
      let c1 := cookie.take p1
      match hexdecode ((cookie.drop (p1 + 1)).take q), hexdecode (cookie.drop (p2 + 1)) with
      | some user, some mac =>
        let ets := etsOf c1
        match usersFind wcfg.users user with
        | none => false
        | some cred =>
          if now % 2 ^ 32 > ets + cred.sduration then false
          else mac == hm1 secret (cookie.take p2)
      | _, _ => false

/-- Output length in bytes of each HMAC (20 for SHA-1, 32 for SHA-256,
64 for SHA-512). -/
def hashLen : htAlgo → Nat
  | hAlgoSha1 => 20
  | hAlgoSha256 => 32
  | hAlgoSha512 => 64

/-- The `po10` table of totp_calc (server.cc lines 239-240). -/
def po10 : List Nat :=
  [1, 10, 100, 1000, 10000, 100000, 1000000, 10000000, 100000000, 1000000000]

/-- The 8-byte big-endian counter message of totp_calc
(server.cc lines 246-252). -/
def counterBytes (epoch : Nat) : Str :=
  [0, 0, 0, 0, (epoch >>> 24) % 256, (epoch >>> 16) % 256, (epoch >>> 8) % 256, epoch % 256]

/-- `unsigned off = hash[hashs.size() - 1] & 15` of totp_calc (line 258). -/
def totp_off (hash : Str) : Nat := (hash.getD (hash.length - 1) 0) &&& 15

/-- The 32-bit word assembled at the offset, masked with 0x7fffffff
(totp_calc lines 260-261). -/
def trunc_masked (hash : Str) : Nat :=
  let off := totp_off hash
  (((hash.getD off 0) <<< 24) ||| ((hash.getD (off + 1) 0) <<< 16) |||
    ((hash.getD (off + 2) 0) <<< 8) ||| (hash.getD (off + 3) 0)) &&& 0x7fffffff

/-- `AuthenticationServer::totp_calc` (server.cc lines 238-263); `hmacs`
abstracts the `algtbl` of HMAC implementations. -/
def totp_calc (hmacs : htAlgo → Str → Str → Str) (key : Str) (algo : htAlgo)
    (digits : Nat) (epoch : Nat) : Nat :=
  let hash := hmacs algo key (counterBytes epoch)
  trunc_masked hash % po10.getD digits 0

/-- The truncation formula as the spec states it:
`v = (h[offset] & 0x7F) << 24 | h[offset+1] << 16 | h[offset+2] << 8 | h[offset+3]`. -/
def hotp_spec_value (h : Str) : Nat :=
  let off := (h.getD (h.length - 1) 0) &&& 15
  (((h.getD off 0) &&& 0x7f) <<< 24) ||| ((h.getD (off + 1) 0) <<< 16) |||
    ((h.getD (off + 2) 0) <<< 8) ||| (h.getD (off + 3) 0)

/-- `AuthenticationServer::totp_valid` (server.cc lines 230-236).
`ct` is a `uint32_t`; the loop index `i` runs from `-generations` to
`generations` and `ct + i` wraps modulo 2^32; `digits` is narrowed to
`uint8_t` at the call. -/
def totp_valid (hmacs : htAlgo → Str → Str → Str) (now : Nat) (user : cred_t)
    (input : Nat) (generations : Nat) : Bool :=
  let ct : Nat := (now / user.period) % 2 ^ 32
  (List.range (2 * generations + 1)).any (fun k =>
    totp_calc hmacs user.totp user.algorithm (user.digits % 256)
      ((((ct : Int) + (k : Int) - (generations : Int)) % (2 ^ 32 : Int)).toNat) == input)

/-- Modelled from the spec: `stripnl` of util.h removes every CR and LF
character ("any CR or LF in follow_page is stripped"). -/
def stripnl (s : Str) : Str := s.filter (fun c => !(c == 13 || c == 10))

/-- Modelled from the spec: the state of the `RateLimiter` of ratelimit.h —
a map from 64-bit key to a token counter and last-update timestamp, with a
global refill rate and capacity equal to that rate. -/
structure RateLimiter where
  rate : Nat
  buckets : List (Nat × Nat × Nat)
deriving DecidableEq

/-- Modelled from the spec: tokens available to `key` at `now` after
refill — `min(capacity, current + r * (now - last_update))`; a newly seen
key starts at full capacity. -/
def RateLimiter.tokens (rl : RateLimiter) (now key : Nat) : Nat :=
  match rl.buckets.find? (fun b => b.1 == key) with
  | none => rl.rate
  | some b => min rl.rate (b.2.1 + rl.rate * (now - b.2.2))

/-- Modelled from the spec: `check(key) → bool` returns true iff the key
is currently denied (bucket empty). -/
def RateLimiter.check (rl : RateLimiter) (now key : Nat) : Bool :=
  rl.tokens now key == 0

/-- Modelled from the spec: `consume(key)` decrements the bucket for
`key`, applying refill first and advancing `last_update` to `now`. -/
def RateLimiter.consume (rl : RateLimiter) (now key : Nat) : RateLimiter :=
  { rl with buckets := (key, rl.tokens now key - 1, now) :: rl.buckets.filter (fun b => b.1 != key) }

/-- Lookup in the template registry of templates.h (the registry itself
is an abstract parameter). -/
def tmplFind (ts : List (Str × (Str → Str → Bool → Str))) (k : Str) :
    Option (Str → Str → Bool → Str) :=
  (ts.find? (fun p => p.1 == k)).map (fun p => p.2)

/-- The follow-page resolution of process_req (server.cc lines 136-140):
`getvars["follow_page"]`, else `postvars["follow_page"]`, else "/". -/
def follow_page_of (req : web_req) : Str :=
  let r0 := mapGet req.getvars (strB follow_page_s)
  let r1 := if r0.isEmpty then mapGet req.postvars (strB follow_page_s) else r0
  if r1.isEmpty then strB root_s else r1

/-- The login-success condition of process_req (server.cc lines 167-175):
method is POST, the user exists, the password matches exactly, and the
TOTP code validates with `wcfg->totp_generations`. -/
def login_success (hmacs : htAlgo → Str → Str → Str) (now : Nat)
    (req : web_req) (wcfg : web_t) : Bool :=
  req.method == strB post_s &&
    match usersFind wcfg.users (mapGet req.postvars (strB username_s)) with
    | none => false
    | some cred =>
      cred.password == mapGet req.postvars (strB password_s) &&
        totp_valid hmacs now cred (atoiU (mapGet req.postvars (strB totp_key_s)))
          wcfg.totp_generations

/-- The /login form handling of process_req after the rate-limit gate
(server.cc lines 166-198): a 302 with cookie and sanitized Location on
success, otherwise the rendered template with the error flag reflecting
a failed POST, or a 500 when the template is missing. -/
def login_body (hmacs : htAlgo → Str → Str → Str) (now : Nat) (secret : Str)
    (templates : List (Str × (Str → Str → Bool → Str)))
    (req : web_req) (wcfg : web_t) : Str :=
  let rpage := follow_page_of req
  if login_success hmacs now req wcfg then
    ((((strB resp_302_pre_s ++
        create_cookie (hmacs hAlgoSha1) secret now (mapGet req.postvars (strB username_s))) ++
        strB resp_302_mid_s) ++ stripnl rpage) ++ strB crlf2_s)
  else
    match tmplFind templates wcfg.webtemplate with
    | none => strB resp_no_template_s
    | some f =>
      let page := f req.host rpage (req.method == strB post_s)
      ((strB resp_render_pre_s ++ decBytes page.length) ++ strB crlf2_s) ++ page

/-- `AuthenticationServer::process_req` (server.cc lines 135-210),
returning the response and the rate-limiter state after the request. -/
def process_req (hmacs : htAlgo → Str → Str → Str) (now : Nat) (secret : Str)
    (templates : List (Str × (Str → Str → Bool → Str)))
    (rl : RateLimiter) (req : web_req) (wcfg : web_t) : Str × RateLimiter :=
  if req.uri == strB auth_uri_s then
    (if check_cookie (hmacs hAlgoSha1) secret now wcfg
        (mapGet req.cookies (strB auth_token_s))
      then strB resp_auth_ok_s else strB resp_auth_denied_s, rl)
  else if req.uri == strB login_uri_s then
    if RateLimiter.check rl now req.ip64 then (strB resp_ratelimited_s, rl)
    else (login_body hmacs now secret templates req wcfg, RateLimiter.consume rl now req.ip64)
  else if req.uri == strB logout_uri_s then (strB resp_logout_s, rl)
  else (strB resp_notfound_s, rl)

/-- The client-IP normalization of `AuthenticationServer::work`
(server.cc lines 292-302): `v6` is the 16-byte result of a successful
IPv6 parse, `v4` the 32-bit network-order address of a successful IPv4
parse; both `none` when unparseable. -/
def ip64_of (v6 : Option Str) (v4 : Option Nat) : Nat :=
  match v6 with
  | some b =>
    ((b.getD 0 0) <<< 40) ||| ((b.getD 1 0) <<< 32) ||| ((b.getD 2 0) <<< 24) |||
      ((b.getD 3 0) <<< 16) ||| ((b.getD 4 0) <<< 8) ||| (b.getD 5 0)
  | none =>
    match v4 with
    | some a => a
    | none => 0

/-! ## Helper lemmas -/

theorem strFind_eq_none_iff (s : Str) (c : Nat) :
    strFind s c = none ↔ ∀ a ∈ s, a ≠ c := by
  induction s with
  | nil => simp [strFind]
  | cons a rest ih =>
    by_cases h : a = c
    · simp [strFind, h]
    · simp [strFind, h, Option.map_eq_none', ih]

theorem strFind_append (l1 l2 : Str) (c : Nat) (h : ∀ a ∈ l1, a ≠ c) :
    strFind (l1 ++ c :: l2) c = some l1.length := by
  induction l1 with
  | nil => simp [strFind]
  | cons a rest ih =>
    have ha : a ≠ c := h a (by simp)
    simp [strFind, ha, ih (fun x hx => h x (by simp [hx]))]

theorem strFind_decompose (s : Str) (c p : Nat) (h : strFind s c = some p) :
    s.take p ++ c :: s.drop (p + 1) = s ∧ ∀ a ∈ s.take p, a ≠ c := by
  induction s generalizing p with
  | nil => simp [strFind] at h
  | cons a rest ih =>
    by_cases hac : a = c
    · simp [strFind, hac] at h
      subst hac
      simp [← h]
    · simp [strFind, hac, Option.map_eq_some'] at h
      obtain ⟨q, hq, hp⟩ := h
      obtain ⟨ih1, ih2⟩ := ih q hq
      subst hp
      refine ⟨?_, ?_⟩
      · simpa using ih1
      · intro x hx
        simp [List.take] at hx
        rcases hx with hx | hx
        · subst hx; exact hac
        · exact ih2 x hx

theorem drop_after (l1 l2 : Str) (c : Nat) : (l1 ++ c :: l2).drop (l1.length + 1) = l2 := by
  have h : l1 ++ c :: l2 = (l1 ++ [c]) ++ l2 := by simp
  have hl : (l1 ++ [c]).length = l1.length + 1 := by simp
  rw [h, ← hl, List.drop_left]

theorem take_payload (l1 l2 : Str) (c : Nat) : (l1 ++ c :: l2).take l1.length = l1 := by
  have h : l1 ++ c :: l2 = l1 ++ ([c] ++ l2) := by simp
  rw [h, List.take_append_of_le_length (by simp)]
  simp [List.take_left]

theorem hexDigit_ne_colon (n : Nat) : hexDigit n ≠ 58 := by
  unfold hexDigit
  split <;> omega

theorem hexencode_ne_colon (s : Str) : ∀ a ∈ hexencode s, a ≠ 58 := by
  induction s with
  | nil => simp [hexencode]
  | cons b rest ih =>
    intro a ha
    simp only [hexencode, List.mem_cons] at ha
    rcases ha with h | h | h
    · subst h; exact hexDigit_ne_colon _
    · subst h; exact hexDigit_ne_colon _
    · exact ih a h

theorem unhex_hexDigit (n : Nat) (h : n < 16) : unhex (hexDigit n) = some n := by
  unfold hexDigit unhex
  by_cases h10 : n < 10
  · rw [if_pos h10, if_pos (by omega)]
    congr 1
    omega
  · rw [if_neg h10, if_neg (by omega), if_pos (by omega)]
    congr 1
    omega

theorem hexdecode_hexencode (s : Str) (h : ∀ b ∈ s, b < 256) :
    hexdecode (hexencode s) = some s := by
  induction s with
  | nil => rfl
  | cons b rest ih =>
    have hb : b < 256 := h b (by simp)
    have h1 : unhex (hexDigit (b / 16)) = some (b / 16) := unhex_hexDigit _ (by omega)
    have h2 : unhex (hexDigit (b % 16)) = some (b % 16) := unhex_hexDigit _ (by omega)
    have h3 := ih (fun x hx => h x (by simp [hx]))
    simp only [hexencode, hexdecode, h1, h2, h3]
    congr 2
    omega

theorem decAux_digits (fuel : Nat) : ∀ n, ∀ c ∈ decAux fuel n, 48 ≤ c ∧ c ≤ 57 := by
  induction fuel with
  | zero => intro n c hc; simp [decAux] at hc
  | succ fuel ih =>
    intro n c hc
    by_cases hn : n = 0
    · simp [decAux, hn] at hc
    · simp only [decAux, if_neg hn, List.mem_append, List.mem_singleton] at hc
      rcases hc with h | h
      · exact ih _ c h
      · subst h; omega

theorem decBytes_digits (n : Nat) : ∀ c ∈ decBytes n, 48 ≤ c ∧ c ≤ 57 := by
  unfold decBytes
  split
  · intro c hc; simp at hc; omega
  · exact decAux_digits n n

theorem decBytes_ne_colon (n : Nat) : ∀ a ∈ decBytes n, a ≠ 58 := by
  intro a ha
  have := decBytes_digits n a ha
  omega

theorem decBytes_ne_nil (n : Nat) : decBytes n ≠ [] := by
  unfold decBytes
  split
  · simp
  · rename_i hn
    cases hc : n with
    | zero => exact absurd hc hn
    | succ m =>
      simp only [decAux, if_neg hn]
      intro h
      exact absurd (List.append_eq_nil.mp h).2 (by simp)

theorem parseDigits_all (l : Str) : ∀ acc, (∀ c ∈ l, 48 ≤ c ∧ c ≤ 57) →
    parseDigits l acc = l.foldl (fun a c => a * 10 + (c - 48)) acc := by
  induction l with
  | nil => intro acc _; rfl
  | cons c rest ih =>
    intro acc h
    have hc := h c (by simp)
    simp only [parseDigits, if_pos hc, List.foldl_cons]
    exact ih _ (fun x hx => h x (by simp [hx]))

theorem foldl_decAux (fuel : Nat) : ∀ n acc, n ≤ fuel →
    (decAux fuel n).foldl (fun a c => a * 10 + (c - 48)) acc
      = acc * 10 ^ (decAux fuel n).length + n := by
  induction fuel with
  | zero =>
    intro n acc h
    interval_cases n
    simp [decAux]
  | succ fuel ih =>
    intro n acc h
    by_cases hn : n = 0
    · simp [decAux, hn]
    · have hd : n / 10 ≤ fuel := by omega
      simp only [decAux, if_neg hn]
      rw [List.foldl_append, ih (n / 10) acc hd]
      simp only [List.foldl_cons, List.foldl_nil, List.length_append, List.length_singleton]
      rw [Nat.add_sub_cancel, pow_succ, Nat.add_mul, ← Nat.mul_assoc]
      omega

theorem parse_decBytes (t : Nat) : parseDigits (decBytes t) 0 = t := by
  by_cases ht : t = 0
  · subst ht; decide
  · rw [parseDigits_all _ _ (decBytes_digits t)]
    unfold decBytes
    rw [if_neg ht, foldl_decAux t t 0 le_rfl]
    simp

theorem atolB_decBytes (t : Nat) : atolB (decBytes t) = (t : Int) := by
  obtain ⟨c, rest, hcr⟩ := List.exists_cons_of_ne_nil (decBytes_ne_nil t)
  have hd : 48 ≤ c ∧ c ≤ 57 := decBytes_digits t c (by rw [hcr]; simp)
  have hp : parseDigits (c :: rest) 0 = t := by rw [← hcr]; exact parse_decBytes t
  have hws : skipWS (c :: rest) = c :: rest := by
    simp only [skipWS]
    exact if_neg (by omega)
  unfold atolB
  rw [hcr, hws]
  dsimp only
  rw [if_neg (by omega : ¬c = 45), if_neg (by omega : ¬c = 43), hp]

theorem etsOf_decBytes (t : Nat) (h : t < 2 ^ 64) : etsOf (decBytes t) = t := by
  unfold etsOf
  rw [atolB_decBytes, Int.emod_eq_of_lt (by positivity) (by exact_mod_cast h)]
  simp

theorem skipWS_mem (s : Str) : ∀ a ∈ skipWS s, a ∈ s := by
  induction s with
  | nil => simp [skipWS]
  | cons c rest ih =>
    intro a ha
    by_cases h : c = 32 ∨ (9 ≤ c ∧ c ≤ 13)
    · rw [show skipWS (c :: rest) = skipWS rest from by simp only [skipWS]; exact if_pos h] at ha
      exact List.mem_cons_of_mem c (ih a ha)
    · rw [show skipWS (c :: rest) = c :: rest from by simp only [skipWS]; exact if_neg h] at ha
      exact ha

theorem parseDigits_not_digit (l : Str) (acc : Nat)
    (h : ∀ c ∈ l, ¬(48 ≤ c ∧ c ≤ 57)) : parseDigits l acc = acc := by
  cases l with
  | nil => rfl
  | cons c rest =>
    simp only [parseDigits]
    exact if_neg (h c (by simp))

theorem atolB_no_digits (s : Str) (h : ∀ c ∈ s, ¬(48 ≤ c ∧ c ≤ 57)) : atolB s = 0 := by
  have hsub := skipWS_mem s
  unfold atolB
  cases hws : skipWS s with
  | nil => rfl
  | cons c rest =>
    have hmem : ∀ x ∈ c :: rest, ¬(48 ≤ x ∧ x ≤ 57) := by
      intro x hx
      exact h x (hsub x (by rw [hws]; exact hx))
    have hrest : ∀ x ∈ rest, ¬(48 ≤ x ∧ x ≤ 57) := fun x hx => hmem x (by simp [hx])
    have hr0 : parseDigits rest 0 = 0 := parseDigits_not_digit rest 0 hrest
    have hall : parseDigits (c :: rest) 0 = 0 := parseDigits_not_digit _ 0 hmem
    by_cases h45 : c = 45
    · simp [h45, hr0]
    · by_cases h43 : c = 43
      · simp [h45, h43, hr0]
      · simp [h45, h43, hall]

theorem etsOf_no_digits (s : Str) (h : ∀ c ∈ s, ¬(48 ≤ c ∧ c ≤ 57)) : etsOf s = 0 := by
  unfold etsOf
  rw [atolB_no_digits s h]
  rfl

theorem mul_pow_lor_eq_add {a b k : Nat} (hb : b < 2 ^ k) :
    (a * 2 ^ k) ||| b = a * 2 ^ k + b := by
  apply Nat.eq_of_testBit_eq
  intro j
  rw [Nat.testBit_or, Nat.mul_comm a, Nat.testBit_mul_pow_two_add a hb j,
    Nat.testBit_mul_pow_two]
  by_cases hj : j < k
  · have hge : ¬(j ≥ k) := by omega
    simp [hj, hge]
  · have hge : j ≥ k := by omega
    have hbj : b.testBit j = false :=
      Nat.testBit_lt_two_pow (lt_of_lt_of_le hb (Nat.pow_le_pow_right (by norm_num) hge))
    simp [hj, hge, hbj]

theorem assemble_eq (b0 b1 b2 b3 : Nat) (h1 : b1 < 256) (h2 : b2 < 256) (h3 : b3 < 256) :
    (b0 <<< 24) ||| (b1 <<< 16) ||| (b2 <<< 8) ||| b3
      = b0 * 2 ^ 24 + b1 * 2 ^ 16 + b2 * 2 ^ 8 + b3 := by
  simp only [Nat.shiftLeft_eq, Nat.or_assoc]
  rw [mul_pow_lor_eq_add (show b3 < 2 ^ 8 by norm_num; omega)]
  rw [mul_pow_lor_eq_add (show b2 * 2 ^ 8 + b3 < 2 ^ 16 by norm_num; omega)]
  rw [mul_pow_lor_eq_add (show b1 * 2 ^ 16 + (b2 * 2 ^ 8 + b3) < 2 ^ 24 by norm_num; omega)]
  ring

theorem mask_assemble (b0 b1 b2 b3 : Nat) (h1 : b1 < 256) (h2 : b2 < 256) (h3 : b3 < 256) :
    ((b0 <<< 24) ||| (b1 <<< 16) ||| (b2 <<< 8) ||| b3) &&& 0x7fffffff
      = ((b0 &&& 0x7f) <<< 24) ||| (b1 <<< 16) ||| (b2 <<< 8) ||| b3 := by
  rw [assemble_eq b0 b1 b2 b3 h1 h2 h3,
    show (0x7f : Nat) = 2 ^ 7 - 1 by norm_num,
    Nat.and_pow_two_sub_one_eq_mod,
    assemble_eq (b0 % 2 ^ 7) b1 b2 b3 h1 h2 h3,
    show (0x7fffffff : Nat) = 2 ^ 31 - 1 by norm_num,
    Nat.and_pow_two_sub_one_eq_mod]
  norm_num
  omega

theorem pack6_eq (b0 b1 b2 b3 b4 b5 : Nat) (h1 : b1 < 256) (h2 : b2 < 256)
    (h3 : b3 < 256) (h4 : b4 < 256) (h5 : b5 < 256) :
    (b0 <<< 40) ||| (b1 <<< 32) ||| (b2 <<< 24) ||| (b3 <<< 16) ||| (b4 <<< 8) ||| b5
      = b0 * 2 ^ 40 + b1 * 2 ^ 32 + b2 * 2 ^ 24 + b3 * 2 ^ 16 + b4 * 2 ^ 8 + b5 := by
  simp only [Nat.shiftLeft_eq, Nat.or_assoc]
  rw [mul_pow_lor_eq_add (show b5 < 2 ^ 8 by norm_num; omega)]
  rw [mul_pow_lor_eq_add (show b4 * 2 ^ 8 + b5 < 2 ^ 16 by norm_num; omega)]
  rw [mul_pow_lor_eq_add (show b3 * 2 ^ 16 + (b4 * 2 ^ 8 + b5) < 2 ^ 24 by norm_num; omega)]
  rw [mul_pow_lor_eq_add
    (show b2 * 2 ^ 24 + (b3 * 2 ^ 16 + (b4 * 2 ^ 8 + b5)) < 2 ^ 32 by norm_num; omega)]
  rw [mul_pow_lor_eq_add
    (show b1 * 2 ^ 32 + (b2 * 2 ^ 24 + (b3 * 2 ^ 16 + (b4 * 2 ^ 8 + b5))) < 2 ^ 40 by
      norm_num; omega)]
  ring

theorem getD_mem {l : Str} {i : Nat} (h : i < l.length) : l.getD i 0 ∈ l := by
  rw [List.getD_eq_getElem l 0 h]
  exact List.getElem_mem h

theorem tokens_le_rate (rl : RateLimiter) (now key : Nat) : rl.tokens now key ≤ rl.rate := by
  unfold RateLimiter.tokens
  cases rl.buckets.find? (fun b => b.1 == key) with
  | none => exact le_rfl
  | some b => exact min_le_left _ _

theorem tokens_after_consume (rl : RateLimiter) (now key : Nat) :
    (rl.consume now key).tokens now key = rl.tokens now key - 1 := by
  have hle := tokens_le_rate rl now key
  unfold RateLimiter.tokens at hle
  unfold RateLimiter.consume RateLimiter.tokens
  simp only [List.find?_cons, beq_self_eq_true, Nat.sub_self, Nat.mul_zero, Nat.add_zero]
  omega

/-! ## Claim theorems -/

/-- C1: for every user present in the host configuration and every issue
time, a cookie produced by create_cookie is accepted by check_cookie under
the same cookie secret whenever the current time is at most the issue time
plus the user's sduration, and rejected strictly after that deadline
(times within the ranges of `time_t` and the `(unsigned)` cast). -/
theorem C1_cookie_roundtrip
    (hm1 : Str → Str → Str) (hmb : ∀ k m : Str, ∀ b ∈ hm1 k m, b < 256)
    (secret : Str) (wcfg : web_t) (u : Str) (cred : cred_t)
    (hu : usersFind wcfg.users u = some cred) (hub : ∀ b ∈ u, b < 256)
    (t now : Nat) (ht : t < 2 ^ 63) (hnow : now < 2 ^ 32) :
    check_cookie hm1 secret now wcfg (create_cookie hm1 secret t u)
      = decide (now ≤ t + cred.sduration) := by
  have hcook : create_cookie hm1 secret t u
      = decBytes t ++ 58 :: (hexencode u ++ 58 ::
          hexencode (hm1 secret ((decBytes t ++ [58]) ++ hexencode u))) := by
    simp [create_cookie, List.append_assoc]
  rw [hcook]
  set D := decBytes t with hD
  set HU := hexencode u with hHU
  set P := (D ++ [58]) ++ HU with hP
  set HM := hexencode (hm1 secret P) with hHM
  have h1 : strFind (D ++ 58 :: (HU ++ 58 :: HM)) 58 = some D.length :=
    strFind_append D (HU ++ 58 :: HM) 58 (decBytes_ne_colon t)
  have hdrop1 : (D ++ 58 :: (HU ++ 58 :: HM)).drop (D.length + 1) = HU ++ 58 :: HM :=
    drop_after D (HU ++ 58 :: HM) 58
  have h2 : strFind (HU ++ 58 :: HM) 58 = some HU.length :=
    strFind_append HU HM 58 (hexencode_ne_colon u)
  have htake1 : (D ++ 58 :: (HU ++ 58 :: HM)).take D.length = D :=
    take_payload D (HU ++ 58 :: HM) 58
  have htakeU : (HU ++ 58 :: HM).take HU.length = HU := take_payload HU HM 58
  have hdecU : hexdecode HU = some u := hexdecode_hexencode u hub
  have hassoc : D ++ 58 :: (HU ++ 58 :: HM) = (D ++ 58 :: HU) ++ 58 :: HM := by simp
  have hlen : (D ++ 58 :: HU).length = D.length + 1 + HU.length := by simp; omega
  have hdrop2 : (D ++ 58 :: (HU ++ 58 :: HM)).drop (D.length + 1 + HU.length + 1) = HM := by
    rw [hassoc, ← hlen]
    exact drop_after (D ++ 58 :: HU) HM 58
  have hdecM : hexdecode HM = some (hm1 secret P) := hexdecode_hexencode _ (hmb secret P)
  have htake2 : (D ++ 58 :: (HU ++ 58 :: HM)).take (D.length + 1 + HU.length) = P := by
    rw [hassoc, ← hlen, take_payload (D ++ 58 :: HU) HM 58, hP]
    simp
  have hets : etsOf D = t := etsOf_decBytes t (by omega)
  simp only [check_cookie, h1, hdrop1, h2, htakeU, hdecU, hdrop2, hdecM, htake1, htake2,
    hets, hu, Nat.mod_eq_of_lt hnow]
  by_cases hle : now ≤ t + cred.sduration
  · rw [if_neg (by omega : ¬ now > t + cred.sduration)]
    simp [hle]
  · rw [if_pos (by omega : now > t + cred.sduration)]
    simp [hle]

/-- Witness for C1: a concrete cookie issued at time 5 for user "a"
(duration 3600) is accepted at time 3000. -/
theorem C1_cookie_roundtrip_witness :
    (5 : Nat) < 2 ^ 63 ∧ (3000 : Nat) < 2 ^ 32 ∧
    check_cookie (fun _ _ => [1, 255]) [9] 3000
      (web_t.mk [] 1 [([97], cred_t.mk [112] [0] 3600 6 30 hAlgoSha1)])
      (create_cookie (fun _ _ => [1, 255]) [9] 5 [97]) = true := by
  refine ⟨by decide, by decide, ?_⟩
  rw [C1_cookie_roundtrip (fun _ _ => ([1, 255] : Str)) (fun _ _ b hb => by simp at hb; omega)
    [9] (web_t.mk [] 1 [([97], cred_t.mk [112] [0] 3600 6 30 hAlgoSha1)])
    [97] (cred_t.mk [112] [0] 3600 6 30 hAlgoSha1) rfl (by decide)
    5 3000 (by decide) (by decide)]
  decide

/-- C2: for every HMAC output h (bytes, at least 20 of them), masking the
assembled 32-bit word with 0x7FFFFFFF as totp_calc does equals masking
h[off] with 0x7F before assembly as the spec formula states, and totp_calc
returns that value modulo 10^digits for digits in [6,9]. -/
theorem C2_truncation_equiv
    (h : Str) (hb : ∀ b ∈ h, b < 256) (hl : 20 ≤ h.length)
    (hm : htAlgo → Str → Str → Str) (key : Str) (algo : htAlgo) (d epoch : Nat)
    (hd1 : 6 ≤ d) (hd2 : d ≤ 9)
    (hhm : hm algo key (counterBytes epoch) = h) :
    trunc_masked h = hotp_spec_value h ∧
    totp_calc hm key algo d epoch = hotp_spec_value h % 10 ^ d := by
  have hoff : totp_off h ≤ 15 := Nat.and_le_right
  have hb1 : h.getD (totp_off h + 1) 0 < 256 := hb _ (getD_mem (by omega))
  have hb2 : h.getD (totp_off h + 2) 0 < 256 := hb _ (getD_mem (by omega))
  have hb3 : h.getD (totp_off h + 3) 0 < 256 := hb _ (getD_mem (by omega))
  have hmain : trunc_masked h = hotp_spec_value h := by
    unfold trunc_masked hotp_spec_value totp_off
    exact mask_assemble _ _ _ _ hb1 hb2 hb3
  refine ⟨hmain, ?_⟩
  simp only [totp_calc, hhm, hmain]
  congr 1
  interval_cases d <;> decide

/-- Witness for C2 at a concrete 20-byte hash. -/
theorem C2_truncation_equiv_witness :
    (∀ b ∈ (List.replicate 20 0 : Str), b < 256) ∧ 20 ≤ (List.replicate 20 0 : Str).length ∧
    (trunc_masked (List.replicate 20 0) = hotp_spec_value (List.replicate 20 0) ∧
      totp_calc (fun _ _ _ => List.replicate 20 0) [] hAlgoSha1 6 0
        = hotp_spec_value (List.replicate 20 0) % 10 ^ 6) := by
  refine ⟨by decide, by decide, ?_⟩
  exact C2_truncation_equiv (List.replicate 20 0) (by decide) (by decide)
    (fun _ _ _ => List.replicate 20 0) [] hAlgoSha1 6 0 (by decide) (by decide) rfl

/-- C10: for every key, algorithm, digits in [6,9] and counter, the array
accesses of totp_calc are in bounds: the final-byte read, the offset reads
hash[off..off+3] with off = hash[len-1] & 15, and the po10[digits] read,
since the shortest HMAC output has 20 bytes and off + 3 <= 18 < 20. -/
theorem C10_totp_calc_in_bounds
    (hm : htAlgo → Str → Str → Str)
    (hlen : ∀ a k m, (hm a k m).length = hashLen a)
    (key : Str) (algo : htAlgo) (digits epoch : Nat)
    (hd1 : 6 ≤ digits) (hd2 : digits ≤ 9) :
    (hm algo key (counterBytes epoch)).length - 1 < (hm algo key (counterBytes epoch)).length ∧
    totp_off (hm algo key (counterBytes epoch)) + 3 < (hm algo key (counterBytes epoch)).length ∧
    digits < po10.length := by
  have h20 : 20 ≤ (hm algo key (counterBytes epoch)).length := by
    rw [hlen]
    cases algo <;> simp [hashLen]
  have hoff : totp_off (hm algo key (counterBytes epoch)) ≤ 15 := Nat.and_le_right
  refine ⟨by omega, by omega, ?_⟩
  simp only [po10, List.length_cons, List.length_nil]
  omega

/-- Witness for C10 with a concrete HMAC of correct lengths. -/
theorem C10_totp_calc_in_bounds_witness :
    (List.replicate 20 0 : Str).length - 1 < (List.replicate 20 0 : Str).length ∧
    totp_off (List.replicate 20 0) + 3 < (List.replicate 20 0 : Str).length ∧
    6 < po10.length :=
  C10_totp_calc_in_bounds (fun a _ _ => List.replicate (hashLen a) 0)
    (fun a _ _ => by simp) [] hAlgoSha1 6 0 (by decide) (by decide)

/-- C3: totp_valid(u, c, W) returns true iff some i in the inclusive range
[-W, W] makes the HOTP value computed from u.totp, u.algorithm and u.digits
at the 32-bit counter floor(now / u.period) + i equal to c. -/
theorem C3_totp_window
    (hmacs : htAlgo → Str → Str → Str) (now : Nat) (u : cred_t) (c W : Nat) :
    totp_valid hmacs now u c W = true ↔
      ∃ i : Int, -(W : Int) ≤ i ∧ i ≤ (W : Int) ∧
        totp_calc hmacs u.totp u.algorithm (u.digits % 256)
          ((((now / u.period : Nat) : Int) + i) % (2 ^ 32 : Int)).toNat = c := by
  simp only [totp_valid]
  rw [List.any_eq_true]
  constructor
  · rintro ⟨k, hk, hcalc⟩
    rw [List.mem_range] at hk
    have hcalc' := eq_of_beq hcalc
    refine ⟨(k : Int) - (W : Int), by omega, by omega, ?_⟩
    have harg : ((((now / u.period % 2 ^ 32 : Nat) : Int) + (k : Int) - (W : Int))
          % (2 ^ 32 : Int)).toNat
        = ((((now / u.period : Nat) : Int) + ((k : Int) - (W : Int))) % (2 ^ 32 : Int)).toNat := by
      congr 1
      push_cast
      omega
    rw [← harg]
    exact hcalc'
  · rintro ⟨i, hi1, hi2, hcalc⟩
    refine ⟨(i + (W : Int)).toNat, ?_, ?_⟩
    · rw [List.mem_range]
      omega
    · have hk : (((i + (W : Int)).toNat : Nat) : Int) = i + (W : Int) :=
        Int.toNat_of_nonneg (by omega)
      have harg : ((((now / u.period % 2 ^ 32 : Nat) : Int) + (((i + (W : Int)).toNat : Nat) : Int)
            - (W : Int)) % (2 ^ 32 : Int)).toNat
          = ((((now / u.period : Nat) : Int) + i) % (2 ^ 32 : Int)).toNat := by
        congr 1
        rw [hk]
        push_cast
        omega
      show (totp_calc hmacs u.totp u.algorithm (u.digits % 256) _ == c) = true
      rw [harg, hcalc]
      exact beq_self_eq_true c

/-- C4: for every request whose URI is exactly "/auth", the handler
returns 200 "Authentication Succeeded" when check_cookie accepts the
"authentication-token" cookie value and 401 "Authentication Denied"
otherwise; a request without that cookie yields the 401 response. -/
theorem C4_auth_dispatch
    (hmacs : htAlgo → Str → Str → Str) (now : Nat) (secret : Str)
    (templates : List (Str × (Str → Str → Bool → Str)))
    (rl : RateLimiter) (req : web_req) (wcfg : web_t)
    (h : req.uri = strB auth_uri_s) :
    process_req hmacs now secret templates rl req wcfg
      = ((if check_cookie (hmacs hAlgoSha1) secret now wcfg
              (mapGet req.cookies (strB auth_token_s))
          then strB resp_auth_ok_s else strB resp_auth_denied_s), rl) ∧
    (req.cookies.find? (fun p => p.1 == strB auth_token_s) = none →
      process_req hmacs now secret templates rl req wcfg = (strB resp_auth_denied_s, rl)) := by
  constructor
  · simp [process_req, h]
  · intro hnone
    have hm0 : mapGet req.cookies (strB auth_token_s) = [] := by
      simp [mapGet, hnone]
    simp [process_req, h, hm0, check_cookie, strFind]

/-- Witness for C4: a GET /auth with no cookies is denied. -/
theorem C4_auth_dispatch_witness :
    process_req (fun _ _ _ => []) 0 [] [] (RateLimiter.mk 2 [])
        (web_req.mk [] [] (strB auth_uri_s) [] [] [] 0) (web_t.mk [] 1 [])
      = (strB resp_auth_denied_s, RateLimiter.mk 2 []) :=
  (C4_auth_dispatch (fun _ _ _ => []) 0 [] [] (RateLimiter.mk 2 [])
    (web_req.mk [] [] (strB auth_uri_s) [] [] [] 0) (web_t.mk [] 1 []) rfl).2 rfl

/-- C7: for every request to "/login", an empty bucket for the client key
yields 429 "Too many requests, request blocked" with the limiter state
unchanged and no credential processing; otherwise exactly one token is
consumed for that key and handling continues with the login form body. -/
theorem C7_rate_limit
    (hmacs : htAlgo → Str → Str → Str) (now : Nat) (secret : Str)
    (templates : List (Str × (Str → Str → Bool → Str)))
    (rl : RateLimiter) (req : web_req) (wcfg : web_t)
    (hu : req.uri = strB login_uri_s) :
    (RateLimiter.check rl now req.ip64 = true →
      process_req hmacs now secret templates rl req wcfg = (strB resp_ratelimited_s, rl)) ∧
    (RateLimiter.check rl now req.ip64 = false →
      process_req hmacs now secret templates rl req wcfg
        = (login_body hmacs now secret templates req wcfg,
            RateLimiter.consume rl now req.ip64) ∧
      (RateLimiter.consume rl now req.ip64).tokens now req.ip64 + 1
        = rl.tokens now req.ip64) := by
  have hne : (strB login_uri_s == strB auth_uri_s) = false := by decide
  constructor
  · intro hc
    simp [process_req, hu, hne, hc]
  · intro hc
    refine ⟨by simp [process_req, hu, hne, hc], ?_⟩
    have ht := tokens_after_consume rl now req.ip64
    have hz : rl.tokens now req.ip64 ≠ 0 := by
      simpa [RateLimiter.check] using hc
    omega

/-- Witness for C7: a fresh limiter with rate 2 admits the request and
drops the bucket for the key from 2 to 1 token. -/
theorem C7_rate_limit_witness :
    RateLimiter.check (RateLimiter.mk 2 []) 7 5 = false ∧
    process_req (fun _ _ _ => []) 7 [] [] (RateLimiter.mk 2 [])
        (web_req.mk [] [] (strB login_uri_s) [] [] [] 5) (web_t.mk [] 1 [])
      = (login_body (fun _ _ _ => []) 7 [] [] (web_req.mk [] [] (strB login_uri_s) [] [] [] 5)
          (web_t.mk [] 1 []),
          RateLimiter.consume (RateLimiter.mk 2 []) 7 5) ∧
    (RateLimiter.consume (RateLimiter.mk 2 []) 7 5).tokens 7 5 + 1
      = (RateLimiter.mk 2 []).tokens 7 5 := by
  refine ⟨rfl, ?_⟩
  exact (C7_rate_limit (fun _ _ _ => []) 7 [] [] (RateLimiter.mk 2 [])
    (web_req.mk [] [] (strB login_uri_s) [] [] [] 5) (web_t.mk [] 1 []) rfl).2 rfl

/-- C5: for a POST to /login that is not rate-limited: when the submitted
username exists, the password matches exactly and the TOTP code validates
with totp_generations, the handler returns the 302 response carrying a
freshly issued authentication-token cookie and a Location equal to the
follow page with every CR and LF removed; in the other POST cases the
error flag is set and the host's template (when present) is rendered. -/
theorem C5_login_success
    (hmacs : htAlgo → Str → Str → Str) (now : Nat) (secret : Str)
    (templates : List (Str × (Str → Str → Bool → Str)))
    (rl : RateLimiter) (req : web_req) (wcfg : web_t)
    (hu : req.uri = strB login_uri_s)
    (hr : RateLimiter.check rl now req.ip64 = false)
    (hp : req.method = strB post_s) :
    (∀ cred : cred_t,
      usersFind wcfg.users (mapGet req.postvars (strB username_s)) = some cred →
      cred.password = mapGet req.postvars (strB password_s) →
      totp_valid hmacs now cred (atoiU (mapGet req.postvars (strB totp_key_s)))
          wcfg.totp_generations = true →
      process_req hmacs now secret templates rl req wcfg
        = (((((strB resp_302_pre_s ++
              create_cookie (hmacs hAlgoSha1) secret now
                (mapGet req.postvars (strB username_s))) ++
              strB resp_302_mid_s) ++ stripnl (follow_page_of req)) ++ strB crlf2_s),
            RateLimiter.consume rl now req.ip64)) ∧
    (login_success hmacs now req wcfg = false →
      ∀ f, tmplFind templates wcfg.webtemplate = some f →
        process_req hmacs now secret templates rl req wcfg
          = ((((strB resp_render_pre_s ++
                decBytes (f req.host (follow_page_of req) true).length) ++ strB crlf2_s) ++
                f req.host (follow_page_of req) true,
              RateLimiter.consume rl now req.ip64))) := by
  have hne : (strB login_uri_s == strB auth_uri_s) = false := by decide
  constructor
  · intro cred hcred hpw htotp
    have hsucc : login_success hmacs now req wcfg = true := by
      simp [login_success, hp, hcred, hpw, htotp]
    simp [process_req, hu, hne, hr, login_body, hsucc]
  · intro hfail f hf
    simp [process_req, hu, hne, hr, login_body, hfail, hf, hp]

/-- Witness for C5: a successful concrete login issues the 302 redirect. -/
theorem C5_login_success_witness :
    process_req (fun _ _ _ => List.replicate 20 0) 0 [7] [([116], fun _ _ _ => [88])]
        (RateLimiter.mk 2 [])
        (web_req.mk (strB post_s) [] (strB login_uri_s) []
          [(strB username_s, [97]), (strB password_s, [112]), (strB totp_key_s, [48])] [] 0)
        (web_t.mk [116] 0 [([97], cred_t.mk [112] [0] 3600 6 30 hAlgoSha1)])
      = (((((strB resp_302_pre_s ++
            create_cookie ((fun _ _ _ => (List.replicate 20 0 : Str)) hAlgoSha1) [7] 0
              (mapGet [(strB username_s, [97]), (strB password_s, [112]),
                (strB totp_key_s, [48])] (strB username_s))) ++
            strB resp_302_mid_s) ++
            stripnl (follow_page_of (web_req.mk (strB post_s) [] (strB login_uri_s) []
              [(strB username_s, [97]), (strB password_s, [112]),
                (strB totp_key_s, [48])] [] 0))) ++ strB crlf2_s),
          RateLimiter.consume (RateLimiter.mk 2 []) 0 0) :=
  (C5_login_success (fun _ _ _ => List.replicate 20 0) 0 [7] [([116], fun _ _ _ => [88])]
    (RateLimiter.mk 2 [])
    (web_req.mk (strB post_s) [] (strB login_uri_s) []
      [(strB username_s, [97]), (strB password_s, [112]), (strB totp_key_s, [48])] [] 0)
    (web_t.mk [116] 0 [([97], cred_t.mk [112] [0] 3600 6 30 hAlgoSha1)])
    rfl rfl rfl).1 (cred_t.mk [112] [0] 3600 6 30 hAlgoSha1) rfl rfl (by decide)

/-- C6: check_cookie denies when the cookie has fewer than two colons,
when the hex-decoded username is not in the user map, and when the
current time exceeds the parsed timestamp plus that user's sduration;
a first field with no decimal digits parses as timestamp 0 and is then
denied by age. -/
theorem C6_check_cookie_deny
    (hm1 : Str → Str → Str) (secret : Str) (wcfg : web_t) (now : Nat) (cookie : Str)
    (hnow : now < 2 ^ 32) :
    (List.count 58 cookie < 2 → check_cookie hm1 secret now wcfg cookie = false) ∧
    (∀ p1 q u mac cred,
      strFind cookie 58 = some p1 →
      strFind (cookie.drop (p1 + 1)) 58 = some q →
      hexdecode ((cookie.drop (p1 + 1)).take q) = some u →
      hexdecode (cookie.drop (p1 + 1 + q + 1)) = some mac →
      ((usersFind wcfg.users u = none → check_cookie hm1 secret now wcfg cookie = false) ∧
        (usersFind wcfg.users u = some cred →
          now > etsOf (cookie.take p1) + cred.sduration →
          check_cookie hm1 secret now wcfg cookie = false) ∧
        (usersFind wcfg.users u = some cred →
          (∀ ch ∈ cookie.take p1, ¬(48 ≤ ch ∧ ch ≤ 57)) →
          now > cred.sduration →
          check_cookie hm1 secret now wcfg cookie = false))) := by
  refine ⟨?_, ?_⟩
  · intro hcnt
    cases h1 : strFind cookie 58 with
    | none => simp [check_cookie, h1]
    | some p1 =>
      obtain ⟨hsplit, hnotmem⟩ := strFind_decompose cookie 58 p1 h1
      have hmem : (58 : Nat) ∉ cookie.take p1 := fun hm => hnotmem 58 hm rfl
      have hcnt0 : List.count 58 (cookie.take p1) = 0 := List.count_eq_zero.mpr hmem
      have hcnt2 : List.count 58 (cookie.drop (p1 + 1)) = 0 := by
        have hc := congrArg (List.count 58) hsplit
        rw [List.count_append, List.count_cons_self, hcnt0] at hc
        omega
      have hnone : strFind (cookie.drop (p1 + 1)) 58 = none :=
        (strFind_eq_none_iff _ 58).mpr (fun a ha heq => by
          subst heq
          exact absurd ha (List.count_eq_zero.mp hcnt2))
      simp [check_cookie, h1, hnone]
  · intro p1 q u mac cred h1 h2 hdu hdm
    refine ⟨?_, ?_, ?_⟩
    · intro hun
      simp [check_cookie, h1, h2, hdu, hdm, hun]
    · intro hus hage
      simp only [check_cookie, h1, h2, hdu, hdm, hus]
      rw [if_pos (show now % 2 ^ 32 > etsOf (cookie.take p1) + cred.sduration by
        rw [Nat.mod_eq_of_lt hnow]; omega)]
    · intro hus hnodig hage
      have hets : etsOf (cookie.take p1) = 0 := etsOf_no_digits _ hnodig
      simp only [check_cookie, h1, h2, hdu, hdm, hus, hets]
      rw [if_pos (show now % 2 ^ 32 > 0 + cred.sduration by
        rw [Nat.mod_eq_of_lt hnow]; omega)]

/-- Witness for C6: a cookie with no colon at all is rejected. -/
theorem C6_check_cookie_deny_witness :
    (7 : Nat) < 2 ^ 32 ∧ List.count 58 ([97] : Str) < 2 ∧
    check_cookie (fun _ _ => []) [] 7 (web_t.mk [] 1 []) [97] = false :=
  ⟨by decide, by decide,
    (C6_check_cookie_deny (fun _ _ => []) [] (web_t.mk [] 1 []) 7 [97] (by decide)).1
      (by decide)⟩

/-- C8: on an unknown URI the handler emits status 404 with the expected
body text, Content-Type and an accurate Content-Length, but the body is
placed directly after the Content-Length header and the blank line is
appended after the body, so the header block is not terminated by a blank
line before the body (the response splits as headers ++ body with no
intervening CRLF CRLF). -/
theorem C8_notfound_malformed :
    process_req (fun _ _ _ => []) 0 [] [] (RateLimiter.mk 2 [])
        (web_req.mk [] [] [47, 120] [] [] [] 0) (web_t.mk [] 1 [])
      = (strB resp_notfound_s, RateLimiter.mk 2 []) ∧
    strB resp_notfound_s = strB resp_notfound_head_s ++ strB resp_notfound_tail_s ∧
    List.take 4 (strB resp_notfound_tail_s) = [78, 111, 116, 32] := by
  refine ⟨rfl, by decide, by decide⟩

/-- C9: the client key packs the top 6 bytes of a parsed IPv6 address
with byte 0 at bits 40..47 down to byte 5 at bits 0..7 (a 48-bit value);
a parsed IPv4 address gives its 32-bit network-order value directly;
unparseable input maps to 0. -/
theorem C9_ip64_normalization
    (b : Str) (hlen16 : b.length = 16) (hb : ∀ x ∈ b, x < 256) (v4 : Option Nat) :
    (ip64_of (some b) v4
        = b.getD 0 0 * 2 ^ 40 + b.getD 1 0 * 2 ^ 32 + b.getD 2 0 * 2 ^ 24 +
          b.getD 3 0 * 2 ^ 16 + b.getD 4 0 * 2 ^ 8 + b.getD 5 0 ∧
      ip64_of (some b) v4 < 2 ^ 48) ∧
    (∀ a : Nat, ip64_of none (some a) = a) ∧
    ip64_of none none = 0 := by
  have h0 : b.getD 0 0 < 256 := hb _ (getD_mem (by omega))
  have h1 : b.getD 1 0 < 256 := hb _ (getD_mem (by omega))
  have h2 : b.getD 2 0 < 256 := hb _ (getD_mem (by omega))
  have h3 : b.getD 3 0 < 256 := hb _ (getD_mem (by omega))
  have h4 : b.getD 4 0 < 256 := hb _ (getD_mem (by omega))
  have h5 : b.getD 5 0 < 256 := hb _ (getD_mem (by omega))
  have heq : ip64_of (some b) v4
      = b.getD 0 0 * 2 ^ 40 + b.getD 1 0 * 2 ^ 32 + b.getD 2 0 * 2 ^ 24 +
        b.getD 3 0 * 2 ^ 16 + b.getD 4 0 * 2 ^ 8 + b.getD 5 0 := by
    simp only [ip64_of]
    exact pack6_eq _ _ _ _ _ _ h1 h2 h3 h4 h5
  refine ⟨⟨heq, ?_⟩, fun a => rfl, rfl⟩
  rw [heq]
  omega

/-- Witness for C9 at a concrete 16-byte address. -/
theorem C9_ip64_normalization_witness :
    (List.replicate 16 1 : Str).length = 16 ∧
    ip64_of (some (List.replicate 16 1)) none < 2 ^ 48 :=
  ⟨by decide,
    (C9_ip64_normalization (List.replicate 16 1) (by decide) (by decide) none).1.2⟩
